import Mathlib

/-!
Verification of the live-play-ai playback controller, stream-catalog parsing,
custom-URL validation, commentary ring buffer and seek reporting, shallowly
embedded from the TypeScript source (NSPlayer component, StreamUrlInput,
CommentaryPanel).
-/

namespace LivePlay

/-- JavaScript `s.includes(pat)`: substring containment. -/
def strIncludes (s pat : String) : Bool :=
  decide (pat.toList <:+: s.toList)

/-- A connection-method preset: id, display name, ordered header mapping
(NSPlayer lines 31-69). -/
structure ConnectionMethod where
  id : String
  name : String
  headers : List (String × String)
deriving DecidableEq, Repr

def methodDirect : ConnectionMethod :=
  { id := "direct"
    name := "Direct Connection"
    headers := [("User-Agent", "NSPlayer/1.0"),
                ("Accept", "*/*"),
                ("Connection", "keep-alive")] }

def methodAndroid : ConnectionMethod :=
  { id := "android"
    name := "Android Player"
    headers := [("User-Agent", "ExoPlayerLib/2.18.1"),
                ("Accept", "application/vnd.apple.mpegurl"),
                ("Accept-Encoding", "gzip, deflate")] }

def methodVlc : ConnectionMethod :=
  { id := "vlc"
    name := "VLC Method"
    headers := [("User-Agent", "VLC/3.0.16 LibVLC/3.0.16"),
                ("Accept", "*/*"),
                ("Range", "bytes=0-")] }

def methodHlsEnhanced : ConnectionMethod :=
  { id := "hls"
    name := "HLS.js Enhanced"
    headers := [("User-Agent", "Mozilla/5.0 (Linux; Android 11; SM-G973F) AppleWebKit/537.36"),
                ("Accept", "application/vnd.apple.mpegurl, application/x-mpegURL, application/octet-stream"),
                ("Origin", "https://www.sonyliv.com"),
                ("Referer", "https://www.sonyliv.com/")] }

/-- The fixed array `connectionMethods` (NSPlayer lines 31-69). -/
def connectionMethods : List ConnectionMethod :=
  [methodDirect, methodAndroid, methodVlc, methodHlsEnhanced]

/-- JavaScript `connectionMethods.findIndex(m => m.id === id)`:
index of the method with the given id, `-1` when absent (line 170). -/
def methodIndex (id : String) : Int :=
  match connectionMethods.findIdx? (fun m => m.id == id) with
  | some i => (i : Int)
  | none => -1

/-- `connectionMethods[n].id`; the fallback is never used on the indices the
code produces (they are always in range). -/
def methodIdAt (n : Nat) (fallback : String) : String :=
  match connectionMethods[n]? with
  | some m => m.id
  | none => fallback

/-- The headers applied by `xhrSetup` (lines 120-128) to one outgoing request:
the active method is looked up by id and each of its header entries is set on
the request; the request URL plays no role in the choice. -/
def xhrSetupHeaders (methodId : String) (_requestUrl : String) : List (String × String) :=
  match connectionMethods.find? (fun m => m.id == methodId) with
  | some m => m.headers
  | none => []

/-- The controller's React state (lines 18-27) plus the observable effects of
an attach: `attempts` records, in order, the method id active at the start of
each run of the load effect (each `loadWithMethod()` call, line 182);
`liveClients` counts Hls instances created by `loadWithHLS` (line 114) and
never destroyed (the source contains no `destroy` call); `videoSrc` is the
media element's `src` attribute, set by `loadWithNative` (line 155) and
cleared by the effect cleanup (lines 184-188). -/
structure PlayerState where
  src : String
  connectionMethod : String
  hasError : Bool
  errorMessage : String
  isLoading : Bool
  attempts : List String
  liveClients : Nat
  videoSrc : String
deriving DecidableEq, Repr

/-- The body of the load effect (lines 71-101): reset the error and loading
flags (75-77), then `loadWithMethod`: for a locator containing ".m3u8" create
an Hls client and attach it (89-90, 108-132), otherwise assign the locator to
the media element's native source (92, 154-156). -/
def effectBody (s : PlayerState) : PlayerState :=
  if strIncludes s.src ".m3u8" = true then
    { s with hasError := false, errorMessage := "", isLoading := true,
             attempts := s.attempts ++ [s.connectionMethod],
             liveClients := s.liveClients + 1 }
  else
    { s with hasError := false, errorMessage := "", isLoading := true,
             attempts := s.attempts ++ [s.connectionMethod],
             videoSrc := s.src }

/-- The effect cleanup (lines 184-188): clear the media element's `src`
attribute; nothing else is torn down. -/
def effectCleanup (s : PlayerState) : PlayerState :=
  { s with videoSrc := "" }

/-- `tryNextMethod` (lines 169-180): compute `(currentIndex + 1) %
connectionMethods.length`; if it differs from the current index, switch to
that method — which, since `connectionMethod` is an effect dependency
(line 189), re-runs the cleanup and the effect body — otherwise set the
"All connection methods failed" error. -/
def tryNextMethod (s : PlayerState) : PlayerState :=
  if ((methodIndex s.connectionMethod + 1) % (connectionMethods.length : Int))
      ≠ methodIndex s.connectionMethod then
    effectBody (effectCleanup
      { s with connectionMethod :=
          methodIdAt (((methodIndex s.connectionMethod + 1) %
            (connectionMethods.length : Int)).toNat) s.connectionMethod })
  else
    { s with hasError := true,
             errorMessage := "All connection methods failed",
             isLoading := false }

/-- The discrete events the controller reacts to. -/
inductive Event where
  /-- A fatal `Hls.Events.ERROR` (lines 140-145): calls `tryNextMethod`. -/
  | fatalError
  /-- `Hls.Events.MANIFEST_PARSED` (lines 134-138). -/
  | manifestParsed
  /-- The parent changes the `src` prop: cleanup, then the effect re-runs
  with the new locator (dependency array line 189). -/
  | srcChange (u : String)
  /-- The Retry button (lines 360-369): `setHasError(false); setIsLoading(true)`;
  neither is an effect dependency, so no re-run occurs. -/
  | retryClick
  /-- The Try Next Method button (lines 370-378): advance the method index by
  one modulo the method count, re-running the effect. -/
  | tryNextClick
deriving DecidableEq, Repr

/-- One controller transition. -/
def step (s : PlayerState) (e : Event) : PlayerState :=
  match e with
  | .fatalError => tryNextMethod s
  | .manifestParsed => { s with isLoading := false, hasError := false }
  | .srcChange u => effectBody (effectCleanup { s with src := u })
  | .retryClick => { s with hasError := false, isLoading := true }
  | .tryNextClick =>
      effectBody (effectCleanup
        { s with connectionMethod :=
            methodIdAt (((methodIndex s.connectionMethod + 1) %
              (connectionMethods.length : Int)).toNat) s.connectionMethod })

/-- Mounting the player with a locator: the initial `useState` values
(lines 19-27: no error, loading, method `'direct'`) followed by the first run
of the load effect. -/
def mount (src : String) : PlayerState :=
  effectBody
    { src := src, connectionMethod := "direct", hasError := false,
      errorMessage := "", isLoading := true, attempts := [],
      liveClients := 0, videoSrc := "" }

/-- Fold a sequence of events through the controller. -/
def run (s : PlayerState) (es : List Event) : PlayerState :=
  es.foldl step s

/-- The state after mounting on the example locator and receiving three
consecutive fatal streaming-client errors. -/
def threeFatals : PlayerState :=
  run (mount "https://example.com/live.m3u8")
    [Event.fatalError, Event.fatalError, Event.fatalError]

/-- The state after a fourth consecutive fatal error. -/
def fourFatals : PlayerState :=
  step threeFatals Event.fatalError

/-- The terminal error state the spec describes (`AllMethodsFailed`): the
state the `else` branch of `tryNextMethod` (lines 175-179) would produce
after all four methods have been attempted. -/
def allFailedState : PlayerState :=
  { src := "https://example.com/live.m3u8", connectionMethod := "hls",
    hasError := true, errorMessage := "All connection methods failed",
    isLoading := false, attempts := ["direct", "android", "vlc", "hls"],
    liveClients := 4, videoSrc := "" }

/-- The state after one fatal error on a first locator: the active method has
advanced to "android". -/
def c2Before : PlayerState :=
  step (mount "https://a.example/stream.m3u8") Event.fatalError

/-- The state after the locator then changes to a second stream. -/
def c2After : PlayerState :=
  step c2Before (Event.srcChange "https://b.example/other.m3u8")

/-- The state reached when the fourth attach attempt succeeds after three
fatal failures. -/
def c3Final : PlayerState :=
  step threeFatals Event.manifestParsed

/-! ## StreamUrlInput: custom URL validation (StreamUrlInput.tsx lines 80-102) -/

/-- `handleLoadStream`: `url = selectedStream || customUrl`; reject an empty
url with a toast and return; reject a url containing neither ".m3u8" nor
"m3u8" with a toast and return; otherwise call `onStreamLoad(url, '')`.
The result is the argument passed to `onStreamLoad`, or `none` when the
submission is rejected (no state change). -/
def handleLoadStream (selectedStream customUrl : String) : Option String :=
  let url := if selectedStream = "" then customUrl else selectedStream
  if url = "" then none
  else if !(strIncludes url ".m3u8") && !(strIncludes url "m3u8") then none
  else some url

/-! ## StreamUrlInput: catalog parsing (StreamUrlInput.tsx lines 36-78) -/

/-- One entry of the fetched catalog document, with the loosely-typed fields
`fetchStreams` reads from it; `none` is JavaScript `undefined`. -/
structure CatalogMatch where
  video_url : Option String
  dai_url : Option String
  pub_url : Option String
  match_name : Option String
  event_name : Option String
  event_category : Option String
  src : Option String
  isLive : Option Bool
  broadcast_channel : Option String
deriving DecidableEq, Repr

/-- JavaScript truthiness of a possibly-absent string: `undefined` and the
empty string are falsy. -/
def truthy : Option String → Bool
  | some s => !(s == "")
  | none => false

/-- JavaScript `a || b` on possibly-absent strings. -/
def jsOr (a b : Option String) : Option String :=
  if truthy a then a else b

/-- JavaScript string coercion of a possibly-absent string, as in a template
literal: `undefined` renders as "undefined". -/
def jsStr : Option String → String
  | some s => s
  | none => "undefined"

/-- Line 46: `match.video_url || match.dai_url || match.pub_url`. -/
def streamUrlOf (m : CatalogMatch) : Option String :=
  jsOr m.video_url (jsOr m.dai_url m.pub_url)

/-- Line 51: `match.match_name || match.event_name ||
`${match.event_category} Match``. -/
def titleOf (m : CatalogMatch) : String :=
  jsStr (jsOr m.match_name (jsOr m.event_name (some (jsStr m.event_category ++ " Match"))))

/-- The produced source record (StreamData, lines 9-18 and 49-58). -/
structure StreamData where
  id : String
  title : String
  url : String
  category : String
  image : String
  isLive : Bool
  channel : String
  description : String
deriving DecidableEq, Repr

/-- The record pushed for the match at position `i` (lines 49-58). -/
def mkStreamData (i : Nat) (m : CatalogMatch) (u : String) : StreamData :=
  { id := "match-" ++ toString i
    title := titleOf m
    url := u
    category := jsStr (jsOr m.event_category (some "Sports"))
    image := jsStr (jsOr m.src (some ""))
    isLive := m.isLive.getD false
    channel := jsStr (jsOr m.broadcast_channel (some "Unknown"))
    description := jsStr (jsOr m.event_name (some "")) }

/-- `data.matches.forEach((match, index) => ...)` (lines 44-60): starting at
position `i`, push a record for each match whose derived stream URL is
truthy, skipping the others; the position advances over every match. -/
def fetchStreamsAux : Nat → List CatalogMatch → List StreamData
  | _, [] => []
  | i, m :: rest =>
      if truthy (streamUrlOf m) = true then
        mkStreamData i m (jsStr (streamUrlOf m)) :: fetchStreamsAux (i + 1) rest
      else
        fetchStreamsAux (i + 1) rest

/-- The source list produced from a fetched catalog's `matches` array. -/
def fetchStreams (matchList : List CatalogMatch) : List StreamData :=
  fetchStreamsAux 0 matchList

/-- A catalog entry with a stream URL but no name fields, category
"Cricket". -/
def cricketEntry : CatalogMatch :=
  { video_url := some "https://cdn.example/cricket.m3u8", dai_url := none,
    pub_url := none, match_name := none, event_name := none,
    event_category := some "Cricket", src := none, isLive := none,
    broadcast_channel := none }

/-- A catalog entry with a stream URL but no name fields, category
"Football". -/
def footballEntry : CatalogMatch :=
  { video_url := some "https://cdn.example/football.m3u8", dai_url := none,
    pub_url := none, match_name := none, event_name := none,
    event_category := some "Football", src := none, isLive := none,
    broadcast_channel := none }

/-! ## CommentaryPanel: bounded commentary list (CommentaryPanel.tsx lines 6-57) -/

/-- The `type` field of a commentary item. -/
inductive CommentaryType where
  | commentary
  | highlight
  | alert
deriving DecidableEq, Repr

/-- A commentary item (lines 6-11). -/
structure CommentaryItem where
  id : String
  text : String
  timestamp : String
  ctype : CommentaryType
deriving DecidableEq, Repr

/-- One timer tick of `addCommentary` (line 45):
`setCommentary(prev => [newItem, ...prev].slice(0, 50))`. -/
def addCommentary (prev : List CommentaryItem) (item : CommentaryItem) : List CommentaryItem :=
  (item :: prev).take 50

/-- The commentary list after a sequence of ticks, starting from the initial
empty list (line 32). -/
def runCommentary (ticks : List CommentaryItem) : List CommentaryItem :=
  ticks.foldl addCommentary []

/-! ## Seek handling (NSPlayer lines 191-195 and 210-216) -/

/-- The observable playback state of the browser media element. -/
structure MediaElement where
  currentTime : ℚ
  duration : ℚ
deriving DecidableEq, Repr

/-- The browser media element's `currentTime` setter (external collaborator):
the assigned value is clamped to the element's seekable range
`[0, duration]`; the spec: "out-of-range values are clamped by the
underlying media element". -/
def setElementCurrentTime (v : MediaElement) (t : ℚ) : MediaElement :=
  { v with currentTime := max 0 (min t v.duration) }

/-- The `[seekTo]` effect (lines 191-195): when `seekTo` is defined, assign
it directly to `videoRef.current.currentTime`, with no validation by the
controller. -/
def applySeek (v : MediaElement) (seekTo : Option ℚ) : MediaElement :=
  match seekTo with
  | some t => setElementCurrentTime v t
  | none => v

/-- `handleTimeUpdate` (lines 210-216): the value reported upward through
`onTimeUpdate` is the element's current time. -/
def reportedTime (v : MediaElement) : ℚ :=
  v.currentTime

/-! ## Helper lemmas -/

theorem next_ne_current (c : Int) :
    (c + 1) % (connectionMethods.length : Int) ≠ c := by
  have h : (connectionMethods.length : Int) = 4 := by decide
  rw [h]
  omega

theorem tryNextMethod_eq (s : PlayerState) :
    tryNextMethod s =
      effectBody (effectCleanup
        { s with connectionMethod :=
            methodIdAt (((methodIndex s.connectionMethod + 1) %
              (connectionMethods.length : Int)).toNat) s.connectionMethod }) := by
  unfold tryNextMethod
  rw [if_pos (next_ne_current (methodIndex s.connectionMethod))]

theorem effectBody_flags (s : PlayerState) :
    (effectBody s).hasError = false ∧ (effectBody s).isLoading = true ∧
      (effectBody s).errorMessage = "" := by
  unfold effectBody
  split <;> exact ⟨rfl, rfl, rfl⟩

/-! ## Claim theorems -/

/-- C1: the claim states that 4 consecutive fatal failures make the
controller attempt every method once and then reach the terminal
`AllMethodsFailed` state. The code does attempt every method once, but the
terminal state is unreachable: after any fatal error the controller is back
in a loading state (`(i + 1) % 4 = i` is impossible, so the
"All connection methods failed" branch of `tryNextMethod` never executes),
and the fourth fatal error wraps around to method index 0 and starts a
fifth automatic attach attempt. -/
theorem fatal_cycle_never_reaches_allMethodsFailed :
    (∀ s : PlayerState, (step s Event.fatalError).hasError = false ∧
        (step s Event.fatalError).isLoading = true) ∧
    fourFatals.attempts = ["direct", "android", "vlc", "hls", "direct"] ∧
    fourFatals.hasError = false ∧
    fourFatals.errorMessage = "" ∧
    fourFatals.isLoading = true ∧
    fourFatals.connectionMethod = "direct" := by
  refine ⟨fun s => ?_, by decide, by decide, by decide, by decide, by decide⟩
  show (tryNextMethod s).hasError = false ∧ (tryNextMethod s).isLoading = true
  rw [tryNextMethod_eq]
  exact ⟨(effectBody_flags _).1, (effectBody_flags _).2.1⟩

/-- C2 counterexample: after one fatal error (active method "android",
index 1), changing the locator leaves the connection-method index at 1
instead of resetting it to 0, and the two streaming-client instances
created so far are not destroyed (a third is created for the new locator;
the cleanup only clears the media element's src attribute). -/
theorem srcChange_keeps_method_cex :
    c2After.connectionMethod = "android" ∧
    methodIndex c2After.connectionMethod = 1 ∧
    c2Before.liveClients = 2 ∧
    c2After.liveClients = 3 ∧
    c2After.hasError = false ∧
    c2After.errorMessage = "" ∧
    c2After.isLoading = true := by decide

/-- C2 amended: changing the locator resets `hasError` to false,
`errorMessage` to empty and `isLoading` to true and starts a new attach
attempt with the current method, but the active connection-method index
keeps its previous value, and no previously created streaming-client
instance is destroyed. -/
theorem srcChange_resets_flags_keeps_method :
    ∀ (s : PlayerState) (u : String),
      (step s (Event.srcChange u)).src = u ∧
      (step s (Event.srcChange u)).hasError = false ∧
      (step s (Event.srcChange u)).errorMessage = "" ∧
      (step s (Event.srcChange u)).isLoading = true ∧
      (step s (Event.srcChange u)).connectionMethod = s.connectionMethod ∧
      s.liveClients ≤ (step s (Event.srcChange u)).liveClients ∧
      (step s (Event.srcChange u)).attempts = s.attempts ++ [s.connectionMethod] := by
  intro s u
  by_cases h : strIncludes u ".m3u8" = true <;>
    simp [step, effectBody, effectCleanup, h, Nat.le_succ]

/-- C3: with the 4 configured presets and locator
"https://example.com/live.m3u8", three fatal errors followed by a parsed
manifest leave the controller playing on the fourth method: active method
"hls" at index 3, not loading, no error. -/
theorem three_fatals_then_success_plays_on_fourth_method :
    c3Final.connectionMethod = "hls" ∧
    methodIndex c3Final.connectionMethod = 3 ∧
    c3Final.isLoading = false ∧
    c3Final.hasError = false ∧
    c3Final.attempts = ["direct", "android", "vlc", "hls"] ∧
    strIncludes "https://example.com/live.m3u8" ".m3u8" = true := by decide

/-- C4 counterexample: from the terminal error state (all methods failed,
active method "hls" at index 3), activating Retry leaves the
connection-method index at 3 instead of resetting it to 0, and starts no
new attach attempt (the attach history is unchanged). -/
theorem retry_from_error_state_cex :
    (step allFailedState Event.retryClick).connectionMethod = "hls" ∧
    methodIndex (step allFailedState Event.retryClick).connectionMethod = 3 ∧
    (step allFailedState Event.retryClick).attempts = allFailedState.attempts ∧
    (step allFailedState Event.retryClick).hasError = false ∧
    (step allFailedState Event.retryClick).isLoading = true := by decide

/-- C5: for every locator containing ".m3u8" the attach creates a streaming
client (leaving the native source untouched) whose `xhrSetup` injects every
header of the active connection method into each outgoing request; any other
locator is assigned directly to the media element's native source. -/
theorem attach_dispatch_and_header_injection :
    ∀ (s : PlayerState) (m : ConnectionMethod) (url : String),
      m ∈ connectionMethods →
      (effectBody s).liveClients =
        (if strIncludes s.src ".m3u8" = true then s.liveClients + 1 else s.liveClients) ∧
      (effectBody s).videoSrc =
        (if strIncludes s.src ".m3u8" = true then s.videoSrc else s.src) ∧
      xhrSetupHeaders m.id url = m.headers := by
  intro s m url hm
  refine ⟨?_, ?_, ?_⟩
  · unfold effectBody
    split <;> simp_all
  · unfold effectBody
    split <;> simp_all
  · simp only [connectionMethods, List.mem_cons, List.not_mem_nil, or_false] at hm
    rcases hm with rfl | rfl | rfl | rfl <;> rfl

/-- C5 witness: the Direct Connection preset is a configured method, and at
the mounted state for "https://example.com/live.m3u8" the attach takes the
streaming-client path and injects the preset's headers into a segment
request. -/
theorem attach_dispatch_and_header_injection_witness :
    methodDirect ∈ connectionMethods ∧
    ((effectBody (mount "https://example.com/live.m3u8")).liveClients =
        (if strIncludes (mount "https://example.com/live.m3u8").src ".m3u8" = true then
          (mount "https://example.com/live.m3u8").liveClients + 1
         else (mount "https://example.com/live.m3u8").liveClients) ∧
      (effectBody (mount "https://example.com/live.m3u8")).videoSrc =
        (if strIncludes (mount "https://example.com/live.m3u8").src ".m3u8" = true then
          (mount "https://example.com/live.m3u8").videoSrc
         else (mount "https://example.com/live.m3u8").src) ∧
      xhrSetupHeaders methodDirect.id "https://example.com/segment1.ts" = methodDirect.headers) :=
  ⟨by decide,
    attach_dispatch_and_header_injection (mount "https://example.com/live.m3u8")
      methodDirect "https://example.com/segment1.ts" (by decide)⟩

/-- C4 amended: the Retry affordance only clears `hasError` and sets
`isLoading` to true; every other component of the state — in particular the
active connection-method index and the attach history — is unchanged, so no
fresh attach attempt is started. -/
theorem retry_click_only_clears_error :
    ∀ s : PlayerState,
      step s Event.retryClick = { s with hasError := false, isLoading := true } :=
  fun _ => rfl

theorem strIncludes_dot_m3u8 (s : String) (h : strIncludes s ".m3u8" = true) :
    strIncludes s "m3u8" = true := by
  unfold strIncludes at h ⊢
  rw [decide_eq_true_iff] at h ⊢
  have hsub : "m3u8".toList <:+: ".m3u8".toList := ⟨['.'], [], rfl⟩
  exact hsub.trans h

/-- C6: a custom-entry submission (no selected stream) is accepted, and
passed to `onStreamLoad` unchanged, exactly when the entered locator
contains "m3u8"; otherwise — in particular when it is empty — it is
rejected and `onStreamLoad` is not invoked. -/
theorem handleLoadStream_accepts_iff_m3u8 :
    ∀ customUrl : String,
      handleLoadStream "" customUrl =
        (if strIncludes customUrl "m3u8" = true then some customUrl else none) := by
  intro url
  by_cases h0 : url = ""
  · subst h0
    decide
  · by_cases hb : strIncludes url "m3u8" = true
    · simp [handleLoadStream, h0, hb]
    · have ha : ¬ strIncludes url ".m3u8" = true := fun hc => hb (strIncludes_dot_m3u8 url hc)
      simp [handleLoadStream, h0, hb, ha]

/-- C9: a seek request with timestamp T is assigned directly (unvalidated)
to the media element's playback position, and the current time reported on
the next time-update callback equals T clamped by the element to
[0, duration]; in particular it equals T whenever T is in range. -/
theorem seek_assigned_directly_and_reported :
    ∀ (v : MediaElement) (T : ℚ),
      applySeek v (some T) = setElementCurrentTime v T ∧
      reportedTime (applySeek v (some T)) = max 0 (min T v.duration) ∧
      (0 ≤ T → T ≤ v.duration → reportedTime (applySeek v (some T)) = T) := by
  intro v T
  refine ⟨rfl, rfl, fun h1 h2 => ?_⟩
  show max 0 (min T v.duration) = T
  rw [min_eq_left h2, max_eq_right h1]

/-- C9 witness: on an element with duration 100, seeking to the in-range
timestamp 5 reports 5 on the next time update. -/
theorem seek_assigned_directly_and_reported_witness :
    (0 : ℚ) ≤ 5 ∧ (5 : ℚ) ≤ (MediaElement.mk 0 100).duration ∧
    reportedTime (applySeek (MediaElement.mk 0 100) (some 5)) = 5 :=
  ⟨by norm_num, by show (5 : ℚ) ≤ 100; norm_num,
    (seek_assigned_directly_and_reported (MediaElement.mk 0 100) 5).2.2
      (by norm_num) (by show (5 : ℚ) ≤ 100; norm_num)⟩

/-- C10: the produced url follows the fixed precedence video_url over
dai_url over pub_url (a field being skipped exactly when it is absent or
empty); being a pure function of the entry, the choice is deterministic. -/
theorem streamUrl_precedence :
    ∀ m : CatalogMatch,
      streamUrlOf m =
        (if truthy m.video_url = true then m.video_url
         else if truthy m.dai_url = true then m.dai_url
         else m.pub_url) := by
  intro m
  unfold streamUrlOf jsOr
  by_cases h1 : truthy m.video_url = true <;> by_cases h2 : truthy m.dai_url = true <;>
    simp [h1, h2]

theorem foldl_addCommentary_length (l : List CommentaryItem)
    (init : List CommentaryItem) (h : init.length ≤ 50) :
    (l.foldl addCommentary init).length ≤ 50 := by
  induction l generalizing init with
  | nil => simpa using h
  | cons a l ih =>
      apply ih
      simp only [addCommentary, List.length_take, List.length_cons]
      omega

/-- C8: the commentary list holds at most 50 entries after any sequence of
timer ticks, and after every insertion the newest entry is at the front. -/
theorem commentary_bounded_and_newest_first :
    ∀ (ticks : List CommentaryItem) (item : CommentaryItem),
      (runCommentary ticks).length ≤ 50 ∧
      (runCommentary (ticks ++ [item])).head? = some item := by
  intro ticks item
  constructor
  · exact foldl_addCommentary_length ticks [] (by simp)
  · show ((ticks ++ [item]).foldl addCommentary []).head? = some item
    rw [List.foldl_append]
    rfl

theorem mem_fetchStreamsAux (d : StreamData) :
    ∀ (ms : List CatalogMatch) (i : Nat),
      d ∈ fetchStreamsAux i ms ↔
        ∃ j m, ms[j]? = some m ∧ truthy (streamUrlOf m) = true ∧
          d = mkStreamData (i + j) m (jsStr (streamUrlOf m)) := by
  intro ms
  induction ms with
  | nil =>
      intro i
      simp [fetchStreamsAux]
  | cons a rest ih =>
      intro i
      by_cases h : truthy (streamUrlOf a) = true
      · rw [fetchStreamsAux, if_pos h, List.mem_cons, ih (i + 1)]
        constructor
        · rintro (rfl | ⟨j, m, hj, hm, rfl⟩)
          · exact ⟨0, a, by simp, h, by simp⟩
          · refine ⟨j + 1, m, by simpa using hj, hm, ?_⟩
            have harith : i + 1 + j = i + (j + 1) := by omega
            rw [harith]
        · rintro ⟨j, m, hj, hm, rfl⟩
          cases j with
          | zero =>
              simp only [List.getElem?_cons_zero, Option.some.injEq] at hj
              subst hj
              left
              simp
          | succ j =>
              right
              refine ⟨j, m, by simpa using hj, hm, ?_⟩
              have harith : i + (j + 1) = i + 1 + j := by omega
              rw [harith]
      · rw [fetchStreamsAux, if_neg h, ih (i + 1)]
        constructor
        · rintro ⟨j, m, hj, hm, rfl⟩
          refine ⟨j + 1, m, by simpa using hj, hm, ?_⟩
          have harith : i + 1 + j = i + (j + 1) := by omega
          rw [harith]
        · rintro ⟨j, m, hj, hm, rfl⟩
          cases j with
          | zero =>
              simp only [List.getElem?_cons_zero, Option.some.injEq] at hj
              subst hj
              exact absurd hm h
          | succ j =>
              refine ⟨j, m, by simpa using hj, hm, ?_⟩
              have harith : i + (j + 1) = i + 1 + j := by omega
              rw [harith]

/-- C7 counterexample: the fallback title of an included entry with no
name fields is not a positional label: two entries at the same position
(each in a singleton catalog, so both at index 0) with different
`event_category` values produce different titles, so no labelling by
position alone matches the code. -/
theorem fallback_title_not_positional_cex :
    ¬ ∃ label : Nat → String,
        ∀ m : CatalogMatch, truthy m.match_name = false →
          truthy m.event_name = false → truthy (streamUrlOf m) = true →
          (fetchStreams [m]).map StreamData.title = [label 0] := by
  rintro ⟨label, h⟩
  have h1 := h cricketEntry (by decide) (by decide) (by decide)
  have h2 := h footballEntry (by decide) (by decide) (by decide)
  have e1 : (fetchStreams [cricketEntry]).map StreamData.title = ["Cricket Match"] := by
    decide
  have e2 : (fetchStreams [footballEntry]).map StreamData.title = ["Football Match"] := by
    decide
  rw [e1] at h1
  rw [e2] at h2
  have hcontr : ("Cricket Match" : String) = "Football Match" := by
    injection h1.trans h2.symm
  exact absurd hcontr (by decide)

/-- C7 amended: an entry is excluded exactly when none of video_url,
dai_url, pub_url is truthy (present and non-empty); an included entry's
record carries the position-indexed id and a best-effort title taken from
match_name, then event_name, and failing those the category-based fallback
label "(event_category) Match". -/
theorem fetchStreams_inclusion_and_title :
    (∀ (matchList : List CatalogMatch) (d : StreamData),
        d ∈ fetchStreams matchList ↔
          ∃ j m, matchList[j]? = some m ∧ truthy (streamUrlOf m) = true ∧
            d = mkStreamData j m (jsStr (streamUrlOf m))) ∧
    (∀ m : CatalogMatch,
        titleOf m =
          (if truthy m.match_name = true then jsStr m.match_name
           else if truthy m.event_name = true then jsStr m.event_name
           else jsStr m.event_category ++ " Match")) ∧
    (∀ (j : Nat) (m : CatalogMatch) (u : String),
        (mkStreamData j m u).title = titleOf m ∧
        (mkStreamData j m u).id = "match-" ++ toString j) := by
  refine ⟨fun matchList d => ?_, fun m => ?_, fun j m u => ⟨rfl, rfl⟩⟩
  · simpa using mem_fetchStreamsAux d matchList 0
  · unfold titleOf jsOr
    by_cases h1 : truthy m.match_name = true <;> by_cases h2 : truthy m.event_name = true <;>
      simp [h1, h2, jsStr]

end LivePlay
